import Mathlib

/-!
Verification of the stdmodel package (a thin CRUD layer over the bun ORM).

The definitions below are a shallow embedding of src/stdmodel.go.  Queries are
modelled structurally: a select query is its list of appended equality
predicates (bun ANDs successive Where calls) together with a WherePK flag; an
insert query is its optional model, optional ON clause and list of SET clauses.
Reflection-level facts about an argument (pointer-ness, struct-ness, field
tags, nil-ness of pointer fields) are carried explicitly in the argument
types, exactly the facts the Go code branches on.
-/

/-- An equality predicate appended by a Where call, rendering the Go
call q.Where("col = ?", value): the column text and the bound value. -/
structure WherePred where
  column : String
  value : String
deriving DecidableEq, Repr

/-- Model of bun.SelectQuery as built by this package: the list of appended
WHERE predicates (bun combines successive Where calls with AND, in call
order) and whether WherePK was called. -/
structure SelectQuery where
  wheres : List WherePred
  wherePK : Bool
deriving DecidableEq, Repr

/-- Model of m.db.NewSelect().Model(v): a fresh query with no predicates. -/
def SelectQuery.new : SelectQuery :=
  { wheres := [], wherePK := false }

/-- The Where combinator: appends one predicate (bun ANDs it with the rest). -/
def SelectQuery.Where (q : SelectQuery) (p : WherePred) : SelectQuery :=
  { q with wheres := q.wheres ++ [p] }

/-- The WherePK combinator: constrains the query by the model primary key. -/
def SelectQuery.WherePK (q : SelectQuery) : SelectQuery :=
  { q with wherePK := true }

/-- A database row: an association list from column name to stored value. -/
abbrev Row := List (String × String)

/-- Column lookup in a row, first binding wins. -/
def lookupCol : Row → String → Option String
  | [], _ => none
  | (c, v) :: rest, col => if c = col then some v else lookupCol rest col

/-- Engine semantics of one equality predicate: the row satisfies
"col = value" when its value in that column equals the bound value. -/
def evalPred (p : WherePred) (r : Row) : Bool :=
  match lookupCol r p.column with
  | some v => v == p.value
  | none => false

/-- Engine semantics of a whole query against one row: every appended
predicate holds, and, when WherePK was called, the primary-key values of the
model instance (given as equality predicates on the pk columns) hold too. -/
def rowMatches (q : SelectQuery) (pkVals : List WherePred) (r : Row) : Bool :=
  q.wheres.all (fun p => evalPred p r) &&
    (if q.wherePK then pkVals.all (fun p => evalPred p r) else true)

/-- Engine semantics of executing a select: the matching rows of the table,
in table order.  Scanning into a single struct takes the first row (erroring
when there is none); scanning into a slice takes them all.  Both are
delegated to the engine and need only row membership here. -/
def runSelect (q : SelectQuery) (pkVals : List WherePred) (table : List Row) : List Row :=
  table.filter (rowMatches q pkVals)

/-- A record type as this layer sees it: whether (and how) the pointer type
implements the QueryDefaulter interface.  QueryDefault is a method of the
type; the spec declares it stateless, so one function per type models both
the call on the model instance and the call on a freshly constructed
zero-value instance. -/
structure RecordType where
  queryDefault : Option (SelectQuery → SelectQuery)

/-- The direct capability check, as in: if qd, ok := v.(QueryDefaulter); ok
then q = qd.QueryDefault(q). -/
def applyQueryDefault (rt : RecordType) (q : SelectQuery) : SelectQuery :=
  match rt.queryDefault with
  | some d => d q
  | none => q

/-- Embedding of withQueryDefaults (stdmodel.go lines 411-419): it builds a
zero value of the type of v via reflect.New and runs the same capability
check on it.  Since v is a pointer to the record type and the capability is
a per-type stateless method, the check succeeds exactly when the direct
check does and applies the same function. -/
def withQueryDefaults (q : SelectQuery) (rt : RecordType) : SelectQuery :=
  applyQueryDefault rt q

/-- One field of a filter-arguments struct, as reflection sees it: the value
of its field tag ("" when the tag is absent), whether its type is a pointer,
whether the pointer is nil, and the bound value. -/
structure ArgField where
  fieldTag : String
  isPtr : Bool
  isNil : Bool
  value : String
deriving DecidableEq, Repr

/-- The args parameter of Find and List through reflect.ValueOf(args).Kind():
the untyped nil interface (Kind Invalid), a struct value, or anything else
(carrying the printed type name used in the error message). -/
inductive ArgsVal where
  | nil
  | structVal (fields : List ArgField)
  | other (typeName : String)
deriving Repr

/-- Loop body of queryArgs (stdmodel.go lines 395-403): a nil pointer field
is skipped; otherwise a field with a non-empty field tag appends one
equality predicate with the field value. -/
def bindField (q : SelectQuery) (f : ArgField) : SelectQuery :=
  if f.isPtr && f.isNil then q
  else if f.fieldTag != "" then q.Where ⟨f.fieldTag, f.value⟩
  else q

/-- Embedding of queryArgs (stdmodel.go lines 388-409): nil args bind
nothing, a struct binds its fields in declaration order, anything else is an
invalid args type error naming the offending type. -/
def queryArgs (q : SelectQuery) (args : ArgsVal) : Except String SelectQuery :=
  match args with
  | .nil => .ok q
  | .structVal fields => .ok (fields.foldl bindField q)
  | .other typeName => .error ("invalid args type: " ++ typeName)

/-- A field binds a predicate exactly when it is present (not a nil pointer)
and carries a non-empty field tag. -/
def bindsPredicate (f : ArgField) : Bool :=
  !(f.isPtr && f.isNil) && f.fieldTag != ""

/-- The predicates a filter struct contributes, in field-declaration order. -/
def boundPreds (fields : List ArgField) : List WherePred :=
  (fields.filter bindsPredicate).map (fun f => ⟨f.fieldTag, f.value⟩)

/-- The v argument of Create/Delete/Get/Find/Save/Select through
reflect.TypeOf(v).Kind(): either not a pointer (carrying the type name), or
a pointer to a record, carrying the record type and the equality predicates
on the pk columns derived from the populated primary-key fields of the
instance (what WherePK constrains by). -/
inductive ModelArg where
  | nonPtr (typeName : String)
  | ptr (rt : RecordType) (pkVals : List WherePred)

/-- The vs argument of List through reflection: not a pointer, a pointer to
a non-slice, or a pointer to a slice.  For the slice case we carry both any
capability of the named slice type itself (Go allows methods on named slice
types) and the element record type; the code consults only the element. -/
inductive ListArg where
  | nonPtr (typeName : String)
  | ptrToNonSlice (typeName : String)
  | ptrToSlice (sliceDefault : Option (SelectQuery → SelectQuery)) (elem : RecordType)

/-- Outcome of a façade operation: a Go panic, a returned error value, or a
normal result. -/
inductive OpOutcome (α : Type) where
  | panic (msg : String)
  | error (msg : String)
  | ok (val : α)
deriving DecidableEq, Repr

/-- Query built by Get (stdmodel.go lines 150-156): defaults, then WherePK. -/
def getQuery (rt : RecordType) : SelectQuery :=
  (applyQueryDefault rt SelectQuery.new).WherePK

/-- Embedding of Get (stdmodel.go lines 145-161). -/
def getOp (v : ModelArg) (table : List Row) : OpOutcome (List Row) :=
  match v with
  | .nonPtr _ => .panic ("pointer expected")
  | .ptr rt pkVals => .ok (runSelect (getQuery rt) pkVals table)

/-- Query built by Find (stdmodel.go lines 116-125): withQueryDefaults on a
zero-value instance, then the direct capability check on v, then the filter
binder. -/
def findQuery (rt : RecordType) (args : ArgsVal) : Except String SelectQuery :=
  let q := SelectQuery.new
  let q := withQueryDefaults q rt
  let q := applyQueryDefault rt q
  queryArgs q args

/-- Embedding of Find (stdmodel.go lines 111-132). -/
def findOp (v : ModelArg) (args : ArgsVal) (table : List Row) : OpOutcome (List Row) :=
  match v with
  | .nonPtr _ => .panic ("pointer expected")
  | .ptr rt _ =>
    match findQuery rt args with
    | .error e => .error e
    | .ok q => .ok (runSelect q [] table)

/-- Query built by List after shape validation (stdmodel.go lines 187-197):
the capability check runs against a freshly constructed zero-value instance
of the element type of the slice (reflect.New of TypeOf(vs).Elem().Elem()),
then the filter binder. -/
def listQuery (elem : RecordType) (args : ArgsVal) : Except String SelectQuery :=
  queryArgs (applyQueryDefault elem SelectQuery.new) args

/-- Embedding of List (stdmodel.go lines 182-204): a non-pointer or a
pointer to a non-slice is a returned error, not a panic. -/
def listOp (vs : ListArg) (args : ArgsVal) (table : List Row) : OpOutcome (List Row) :=
  match vs with
  | .nonPtr _ => .error ("pointer to slice expected")
  | .ptrToNonSlice _ => .error ("pointer to slice expected")
  | .ptrToSlice _ elem =>
    match listQuery elem args with
    | .error e => .error e
    | .ok q => .ok (runSelect q [] table)

/-- Query built by Select (stdmodel.go lines 299-305). -/
def selectQuery (rt : RecordType) : SelectQuery :=
  applyQueryDefault rt SelectQuery.new

/-- Embedding of Select (stdmodel.go lines 294-306): returns the query
builder handle for caller composition. -/
def selectOp (v : ModelArg) : OpOutcome SelectQuery :=
  match v with
  | .nonPtr _ => .panic ("pointer expected")
  | .ptr rt _ => .ok (selectQuery rt)

/-- Embedding of Create (stdmodel.go lines 61-71): after the pointer guard,
the insert and result scan are one delegated engine call, represented by the
ok outcome. -/
def createOp (v : ModelArg) : OpOutcome Unit :=
  match v with
  | .nonPtr _ => .panic ("pointer expected")
  | .ptr _ _ => .ok ()

/-- Embedding of Delete (stdmodel.go lines 82-92): after the pointer guard,
the delete-by-primary-key is one delegated engine call. -/
def deleteOp (v : ModelArg) : OpOutcome Unit :=
  match v with
  | .nonPtr _ => .panic ("pointer expected")
  | .ptr _ _ => .ok ()

/-- One field of a model struct together with its schema entry: the Go field
name, the storage column name the schema maps it to, and the parsed
attribute list of its model tag ([] when the tag is absent). -/
structure ModelField where
  goName : String
  column : String
  modelAttrs : List String
deriving DecidableEq, Repr

/-- A model struct type: its fields. -/
structure ModelType where
  fields : List ModelField
deriving DecidableEq, Repr

/-- Storage columns of the fields whose model tag carries the update
attribute.  In the Go code this composes modelTags (stdmodel.go lines
366-386) with the schema lookup by Go field name (lines 319-327); each
ModelField here already carries its schema column, so the composition is
direct. -/
def updateTaggedColumns (mt : ModelType) : List String :=
  (mt.fields.filter (fun f => f.modelAttrs.contains "update")).map (fun f => f.column)

/-- Insertion into the column set.  The Go code inserts into a
map[string]bool and later extracts the keys in unspecified order; this
deterministic first-occurrence list is one admissible extraction, and the
claims about the result are membership and duplicate-freedom only. -/
def insertCol (s : List String) (c : String) : List String :=
  if c ∈ s then s else s ++ [c]

/-- Embedding of collectUpdateColumns (stdmodel.go lines 310-336): the
explicitly supplied columns are inserted first, then the columns of the
update-tagged fields. -/
def collectUpdateColumns (mt : ModelType) (additional : List String) : List String :=
  (updateTaggedColumns mt).foldl insertCol (additional.foldl insertCol [])

/-- The configured backend dialect of the bun connection. -/
inductive Dialect where
  | pg
  | sqlite
  | mysql
  | other (name : String)
deriving DecidableEq, Repr

/-- One SET clause of an insert query: the template passed to Set and the
identifiers bound into it. -/
structure SetClause where
  template : String
  idents : List String
deriving DecidableEq, Repr

/-- Model of bun.InsertQuery as this package manipulates it: the model the
insert was built from (none when unknown), the ON clause if one was set,
and the appended SET clauses. -/
structure InsertQuery where
  model : Option ModelType
  onClause : Option String
  setClauses : List SetClause
deriving DecidableEq, Repr

/-- Model of m.db.NewInsert().Model(t). -/
def newInsert (mt : ModelType) : InsertQuery :=
  { model := some mt, onClause := none, setClauses := [] }

/-- The On combinator of bun.InsertQuery: sets the conflict clause. -/
def InsertQuery.On (md : InsertQuery) (s : String) : InsertQuery :=
  { md with onClause := some s }

/-- The Set combinator of bun.InsertQuery: appends one SET clause. -/
def InsertQuery.Set (md : InsertQuery) (c : SetClause) : InsertQuery :=
  { md with setClauses := md.setClauses ++ [c] }

/-- The v argument of Save: not a pointer, a handed-in *bun.InsertQuery
(the type-switch case at stdmodel.go lines 235-240), or a pointer to a
model struct. -/
inductive SaveArg where
  | nonPtr (typeName : String)
  | insertQuery (iq : InsertQuery)
  | ptrModel (mt : ModelType)
deriving Repr

/-- bun.InsertQuery viewed as the reflected model struct that
collectUpdateColumns receives when Save is handed a query directly: none of
the fields of the library struct bun.InsertQuery carries a model tag, so its
tag map is empty and only the explicit columns survive. -/
def insertQueryModelType : ModelType :=
  { fields := [] }

/-- Outcome of Save before the engine call: a panic, or the insert query
handed to Exec. -/
inductive SaveOutcome where
  | panic (msg : String)
  | exec (iq : InsertQuery)
deriving DecidableEq, Repr

/-- Dialect dispatch of Save (stdmodel.go lines 242-271): PostgreSQL and
SQLite set ON CONFLICT DO UPDATE and one EXCLUDED set clause per update
column; MySQL sets ON DUPLICATE KEY UPDATE and one VALUES set clause per
update column; any other dialect leaves the insert untouched. -/
def applyConflict (d : Dialect) (cols : List String) (md : InsertQuery) : InsertQuery :=
  match d with
  | .pg | .sqlite =>
    let md := md.On ("CONFLICT (?PKs) DO UPDATE")
    cols.foldl (fun md col => md.Set ⟨"? = EXCLUDED.?", [col, col]⟩) md
  | .mysql =>
    let md := md.On ("DUPLICATE KEY UPDATE")
    cols.foldl (fun md col => md.Set ⟨"? = VALUES(?)", [col, col]⟩) md
  | .other _ => md

/-- Embedding of Save (stdmodel.go lines 229-278): pointer guard, base
query selection by type switch, then the dialect dispatch; Exec is the
delegated engine call, represented by the exec outcome. -/
def save (d : Dialect) (v : SaveArg) (columns : List String) : SaveOutcome :=
  match v with
  | .nonPtr _ => .panic ("pointer expected")
  | .insertQuery iq =>
    .exec (applyConflict d (collectUpdateColumns insertQueryModelType columns) iq)
  | .ptrModel mt =>
    .exec (applyConflict d (collectUpdateColumns mt columns) (newInsert mt))

/-- The soft-delete example from the test suite: QueryDefault appends the
predicate deleted = false. -/
def pDeleted : WherePred :=
  ⟨"deleted", "false"⟩

/-- Record type implementing QueryDefaulter with the soft-delete predicate,
as testModelWithQueryDefault does in the test file. -/
def rtSoftDelete : RecordType :=
  { queryDefault := some (fun q : SelectQuery => q.Where pDeleted) }

/-- A live row of the example table. -/
def rowActive : Row :=
  [("id", "1"), ("deleted", "false")]

/-- A soft-deleted row of the example table. -/
def rowDeleted : Row :=
  [("id", "2"), ("deleted", "true")]

/-- Example table holding one live and one soft-deleted row. -/
def exampleTable : List Row :=
  [rowActive, rowDeleted]

/-- Unfolding of the filter-binding fold: the bound query extends the input
predicates with exactly the predicates of the present tagged fields, in
field-declaration order; nothing else about the query changes. -/
theorem foldl_bindField (fields : List ArgField) :
    ∀ q : SelectQuery, fields.foldl bindField q =
      { q with wheres := q.wheres ++ boundPreds fields } := by
  induction fields with
  | nil =>
    intro q
    simp [boundPreds]
  | cons f rest ih =>
    intro q
    simp only [List.foldl_cons]
    rw [ih]
    by_cases h1 : (f.isPtr && f.isNil) = true
    · simp [bindField, boundPreds, bindsPredicate, h1]
    · by_cases h2 : (f.fieldTag != "") = true
      · simp [bindField, boundPreds, bindsPredicate, h1, h2, SelectQuery.Where]
      · simp [bindField, boundPreds, bindsPredicate, h1, h2]

/-- The filter binder only appends predicates: every predicate of the input
query is a predicate of any successfully bound query. -/
theorem queryArgs_ok_mem {q q2 : SelectQuery} {args : ArgsVal}
    (h : queryArgs q args = .ok q2) {p : WherePred} (hp : p ∈ q.wheres) :
    p ∈ q2.wheres := by
  cases args with
  | nil =>
    simp only [queryArgs] at h
    cases h
    exact hp
  | structVal fields =>
    simp only [queryArgs] at h
    cases h
    rw [foldl_bindField]
    exact List.mem_append_left _ hp
  | other t =>
    simp [queryArgs] at h

/-- A row failing any appended predicate of a query is not among the rows
the engine returns for that query. -/
theorem not_mem_runSelect {q : SelectQuery} {pkVals : List WherePred} {r : Row}
    (p : WherePred) (hp : p ∈ q.wheres) (hr : evalPred p r = false)
    (table : List Row) : r ∉ runSelect q pkVals table := by
  intro hmem
  have hcond := (List.mem_filter.mp hmem).2
  simp only [rowMatches, Bool.and_eq_true] at hcond
  have hall : q.wheres.all (fun p => evalPred p r) = true := hcond.1
  have := List.all_eq_true.mp hall p hp
  rw [hr] at this
  exact Bool.noConfusion this

/-- When the capability appends the predicate p, the query after the
capability check contains p. -/
theorem mem_applyQueryDefault_Where {rt : RecordType} {p : WherePred}
    (h : rt.queryDefault = some (fun q => q.Where p)) (q : SelectQuery) :
    p ∈ (applyQueryDefault rt q).wheres := by
  simp [applyQueryDefault, h, SelectQuery.Where]

/-- Membership after one map insertion. -/
theorem mem_insertCol {x c : String} {s : List String} :
    x ∈ insertCol s c ↔ x ∈ s ∨ x = c := by
  unfold insertCol
  by_cases h : c ∈ s
  · simp only [h, if_true]
    constructor
    · exact Or.inl
    · rintro (hx | rfl)
      · exact hx
      · exact h
  · simp [h]

/-- Membership after folding map insertions over a list. -/
theorem mem_foldl_insertCol (l : List String) :
    ∀ (s : List String) (x : String), x ∈ l.foldl insertCol s ↔ x ∈ s ∨ x ∈ l := by
  induction l with
  | nil =>
    intro s x
    simp
  | cons c rest ih =>
    intro s x
    simp only [List.foldl_cons]
    rw [ih, mem_insertCol]
    simp only [List.mem_cons]
    tauto

/-- Map insertion preserves duplicate-freedom. -/
theorem nodup_insertCol {s : List String} (c : String) (h : s.Nodup) :
    (insertCol s c).Nodup := by
  unfold insertCol
  by_cases hc : c ∈ s
  · simpa [hc]
  · simp only [hc, if_false]
    rw [List.nodup_append]
    exact ⟨h, List.nodup_singleton c, by simpa using hc⟩

/-- Folding map insertions preserves duplicate-freedom. -/
theorem nodup_foldl_insertCol (l : List String) :
    ∀ s : List String, s.Nodup → (l.foldl insertCol s).Nodup := by
  induction l with
  | nil =>
    intro s h
    simpa
  | cons c rest ih =>
    intro s h
    exact ih _ (nodup_insertCol c h)

/-- Unfolding of the SET-clause fold of Save: one clause per column, in
column order, appended after the existing clauses. -/
theorem foldl_setClause (tmpl : String) (cols : List String) :
    ∀ md : InsertQuery,
      cols.foldl (fun md col => md.Set ⟨tmpl, [col, col]⟩) md =
        { md with setClauses :=
            md.setClauses ++ cols.map (fun col => (⟨tmpl, [col, col]⟩ : SetClause)) } := by
  induction cols with
  | nil =>
    intro md
    simp
  | cons c rest ih =>
    intro md
    simp only [List.foldl_cons]
    rw [ih]
    simp [InsertQuery.Set]

/-- C1: for every record type implementing the QueryDefaulter capability
(here: one whose QueryDefault appends the predicate p), each of the read
entry points Get, Find, List and Select applies the default predicate to
the constructed query, so a row excluded by the predicate is unreachable
via Get by primary key, absent from Find results and absent from List
results, and Select hands back a query carrying the predicate. -/
theorem default_predicate_uniform_filtering (rt : RecordType) (p : WherePred)
    (h : rt.queryDefault = some (fun q => q.Where p))
    (r : Row) (hr : evalPred p r = false)
    (pkVals : List WherePred) (sd : Option (SelectQuery → SelectQuery))
    (args : ArgsVal) (table : List Row) :
    (∀ rows, getOp (.ptr rt pkVals) table = .ok rows → r ∉ rows) ∧
    (∀ rows, findOp (.ptr rt pkVals) args table = .ok rows → r ∉ rows) ∧
    (∀ rows, listOp (.ptrToSlice sd rt) args table = .ok rows → r ∉ rows) ∧
    (∀ q, selectOp (.ptr rt pkVals) = .ok q → p ∈ q.wheres) := by
  refine ⟨?_, ?_, ?_, ?_⟩
  · intro rows hrows
    simp only [getOp, OpOutcome.ok.injEq] at hrows
    subst hrows
    have hp : p ∈ (getQuery rt).wheres := by
      simpa [getQuery, SelectQuery.WherePK] using mem_applyQueryDefault_Where h SelectQuery.new
    exact not_mem_runSelect p hp hr table
  · intro rows hrows
    simp only [findOp] at hrows
    rcases hq : findQuery rt args with e | q
    · rw [hq] at hrows
      exact absurd hrows (by simp)
    · rw [hq] at hrows
      simp only [OpOutcome.ok.injEq] at hrows
      subst hrows
      have hp : p ∈ q.wheres :=
        queryArgs_ok_mem hq
          (mem_applyQueryDefault_Where h (withQueryDefaults SelectQuery.new rt))
      exact not_mem_runSelect p hp hr table
  · intro rows hrows
    simp only [listOp] at hrows
    rcases hq : listQuery rt args with e | q
    · rw [hq] at hrows
      exact absurd hrows (by simp)
    · rw [hq] at hrows
      simp only [OpOutcome.ok.injEq] at hrows
      subst hrows
      have hp : p ∈ q.wheres :=
        queryArgs_ok_mem hq (mem_applyQueryDefault_Where h SelectQuery.new)
      exact not_mem_runSelect p hp hr table
  · intro q hq
    simp only [selectOp, OpOutcome.ok.injEq] at hq
    subst hq
    exact mem_applyQueryDefault_Where h SelectQuery.new

/-- Witness for C1 at the soft-delete example: the soft-deleted row is
unreachable through every read entry point. -/
theorem default_predicate_uniform_filtering_witness :
    (∀ rows, getOp (.ptr rtSoftDelete [⟨"id", "2"⟩]) exampleTable = .ok rows →
      rowDeleted ∉ rows) ∧
    (∀ rows, findOp (.ptr rtSoftDelete [⟨"id", "2"⟩]) .nil exampleTable = .ok rows →
      rowDeleted ∉ rows) ∧
    (∀ rows, listOp (.ptrToSlice none rtSoftDelete) .nil exampleTable = .ok rows →
      rowDeleted ∉ rows) ∧
    (∀ q, selectOp (.ptr rtSoftDelete [⟨"id", "2"⟩]) = .ok q → pDeleted ∈ q.wheres) :=
  default_predicate_uniform_filtering rtSoftDelete pDeleted rfl rowDeleted (by decide)
    [⟨"id", "2"⟩] none .nil exampleTable

/-- C2: for every filter struct, the binder appends exactly one equality
predicate per field that carries a non-empty field tag and is present
(non-pointer fields always, pointer fields only when non-nil), in
field-declaration order, ANDed with the existing predicates; fields that
bind nothing contribute no predicate, and a struct with zero present
tagged fields — like the untyped nil args value — adds no predicates. -/
theorem query_args_one_predicate_per_present_tagged_field
    (q : SelectQuery) (fields : List ArgField) :
    queryArgs q (.structVal fields) =
      .ok { q with wheres := q.wheres ++ boundPreds fields } ∧
    queryArgs q (.structVal (fields.filter (fun f => !bindsPredicate f))) = .ok q ∧
    queryArgs q .nil = .ok q := by
  refine ⟨?_, ?_, rfl⟩
  · simp only [queryArgs]
    rw [foldl_bindField]
  · simp only [queryArgs]
    rw [foldl_bindField]
    have hempty : boundPreds (fields.filter (fun f => !bindsPredicate f)) = [] := by
      unfold boundPreds
      rw [List.filter_filter]
      have : (fields.filter fun f => bindsPredicate f && !bindsPredicate f) = [] := by
        apply List.filter_eq_nil_iff.mpr
        intro f _
        cases bindsPredicate f <;> simp
      rw [this]
      rfl
    rw [hempty]
    simp

/-- C3: the resolved update-column collection of Save is the set union of
the explicitly supplied column names and the storage columns of the
update-tagged fields of the model, with every column appearing at most
once. -/
theorem collect_update_columns_is_union (mt : ModelType) (additional : List String) :
    (∀ c, c ∈ collectUpdateColumns mt additional ↔
      c ∈ additional ∨ c ∈ updateTaggedColumns mt) ∧
    (collectUpdateColumns mt additional).Nodup := by
  constructor
  · intro c
    unfold collectUpdateColumns
    rw [mem_foldl_insertCol, mem_foldl_insertCol]
    simp only [List.not_mem_nil, false_or]
  · exact nodup_foldl_insertCol _ _ (nodup_foldl_insertCol _ _ List.nodup_nil)

/-- C4: Save selects the conflict syntax by dialect: PostgreSQL and SQLite
issue the insert with an ON CONFLICT DO UPDATE clause whose update list is
the resolved update-column set, MySQL issues the ON DUPLICATE KEY UPDATE
form over the same column set, and any other dialect issues a plain insert
with no conflict clause. -/
theorem save_dialect_dispatch (mt : ModelType) (columns : List String) :
    save .pg (.ptrModel mt) columns =
      .exec ⟨some mt, some "CONFLICT (?PKs) DO UPDATE",
        (collectUpdateColumns mt columns).map
          (fun c => ⟨"? = EXCLUDED.?", [c, c]⟩)⟩ ∧
    save .sqlite (.ptrModel mt) columns =
      .exec ⟨some mt, some "CONFLICT (?PKs) DO UPDATE",
        (collectUpdateColumns mt columns).map
          (fun c => ⟨"? = EXCLUDED.?", [c, c]⟩)⟩ ∧
    save .mysql (.ptrModel mt) columns =
      .exec ⟨some mt, some "DUPLICATE KEY UPDATE",
        (collectUpdateColumns mt columns).map
          (fun c => ⟨"? = VALUES(?)", [c, c]⟩)⟩ ∧
    (∀ name, save (.other name) (.ptrModel mt) columns =
      .exec ⟨some mt, none, []⟩) := by
  refine ⟨?_, ?_, ?_, fun name => rfl⟩ <;>
    simp [save, applyConflict, foldl_setClause, newInsert, InsertQuery.On]

/-- C5 counterexample: for the soft-delete record type, whose QueryDefault
appends exactly one predicate per invocation, the query Find constructs
carries that predicate twice — once from the withQueryDefaults pre-pass on
a zero-value instance and once from the direct capability check — so
QueryDefault was invoked twice during this query construction, not exactly
once. -/
theorem query_default_find_double_invocation :
    findQuery rtSoftDelete .nil = .ok ⟨[pDeleted, pDeleted], false⟩ ∧
    List.count pDeleted [pDeleted, pDeleted] = 2 ∧
    (⟨[pDeleted, pDeleted], false⟩ : SelectQuery) ≠ ⟨[pDeleted], false⟩ := by
  refine ⟨rfl, ?_, ?_⟩ <;> decide

/-- C5 as amended: for a record type implementing the QueryDefaulter
capability via the function d, the queries constructed by Get, List and
Select apply d exactly once, while the query constructed by Find applies d
twice (the zero-value pre-pass of withQueryDefaults followed by the direct
check on the model). -/
theorem query_default_invocation_counts (rt : RecordType)
    (d : SelectQuery → SelectQuery) (h : rt.queryDefault = some d)
    (args : ArgsVal) :
    getQuery rt = (d SelectQuery.new).WherePK ∧
    findQuery rt args = queryArgs (d (d SelectQuery.new)) args ∧
    listQuery rt args = queryArgs (d SelectQuery.new) args ∧
    selectQuery rt = d SelectQuery.new := by
  refine ⟨?_, ?_, ?_, ?_⟩ <;>
    simp [getQuery, findQuery, listQuery, selectQuery, withQueryDefaults,
      applyQueryDefault, h]

/-- Witness for the amended C5 at the soft-delete example. -/
theorem query_default_invocation_counts_witness :
    getQuery rtSoftDelete = ((fun q : SelectQuery => q.Where pDeleted) SelectQuery.new).WherePK ∧
    findQuery rtSoftDelete .nil =
      queryArgs ((fun q : SelectQuery => q.Where pDeleted)
        ((fun q : SelectQuery => q.Where pDeleted) SelectQuery.new)) .nil ∧
    listQuery rtSoftDelete .nil =
      queryArgs ((fun q : SelectQuery => q.Where pDeleted) SelectQuery.new) .nil ∧
    selectQuery rtSoftDelete = (fun q : SelectQuery => q.Where pDeleted) SelectQuery.new :=
  query_default_invocation_counts rtSoftDelete (fun q : SelectQuery => q.Where pDeleted) rfl .nil

/-- C6: the capability check of List is made against the element record
type of the slice (via a freshly constructed zero-value instance), not
against the slice or pointer-to-slice type: whatever capability the named
slice type has is ignored, and the element default predicate function d
governs the constructed query. -/
theorem list_capability_checked_on_element
    (sd : Option (SelectQuery → SelectQuery)) (elem : RecordType)
    (d : SelectQuery → SelectQuery) (h : elem.queryDefault = some d)
    (args : ArgsVal) (table : List Row) :
    listOp (.ptrToSlice sd elem) args table =
      (match queryArgs (d SelectQuery.new) args with
       | .error e => .error e
       | .ok q => .ok (runSelect q [] table)) := by
  simp [listOp, listQuery, applyQueryDefault, h]

/-- Witness for C6 at the soft-delete example. -/
theorem list_capability_checked_on_element_witness :
    listOp (.ptrToSlice none rtSoftDelete) .nil exampleTable =
      (match queryArgs ((fun q : SelectQuery => q.Where pDeleted) SelectQuery.new) .nil with
       | .error e => .error e
       | .ok q => .ok (runSelect q [] exampleTable)) :=
  list_capability_checked_on_element none rtSoftDelete
    (fun q : SelectQuery => q.Where pDeleted) rfl .nil exampleTable

/-- C7: List called with a non-pointer, or with a pointer to a non-slice,
returns the recoverable error naming the expected shape, and does not
panic. -/
theorem list_non_slice_recoverable_error (typeName : String) (args : ArgsVal)
    (table : List Row) :
    listOp (.nonPtr typeName) args table = .error ("pointer to slice expected") ∧
    listOp (.ptrToNonSlice typeName) args table =
      .error ("pointer to slice expected") :=
  ⟨rfl, rfl⟩

/-- C8: Create, Delete, Get, Find, Save and Select all terminate with the
pointer-expected panic when the primary data argument is not a pointer; the
outcome is a panic, not a returned error, and is independent of the table,
the filter arguments, the dialect and the column list, so the engine is
never contacted. -/
theorem non_pointer_arg_panics (typeName : String) (args : ArgsVal)
    (table : List Row) (d : Dialect) (columns : List String) :
    createOp (.nonPtr typeName) = .panic ("pointer expected") ∧
    deleteOp (.nonPtr typeName) = .panic ("pointer expected") ∧
    getOp (.nonPtr typeName) table = .panic ("pointer expected") ∧
    findOp (.nonPtr typeName) args table = .panic ("pointer expected") ∧
    save d (.nonPtr typeName) columns = .panic ("pointer expected") ∧
    selectOp (.nonPtr typeName) = .panic ("pointer expected") :=
  ⟨rfl, rfl, rfl, rfl, rfl, rfl⟩

/-- C9: when the filter arguments are neither the nil interface nor a
struct, Find and List return the invalid-args-type error naming the
offending type, for every record type and every table, so the query is
never executed against the engine. -/
theorem invalid_filter_type_error_skips_execution (rt : RecordType)
    (pkVals : List WherePred) (sd : Option (SelectQuery → SelectQuery))
    (typeName : String) (table : List Row) :
    findOp (.ptr rt pkVals) (.other typeName) table =
      .error ("invalid args type: " ++ typeName) ∧
    listOp (.ptrToSlice sd rt) (.other typeName) table =
      .error ("invalid args type: " ++ typeName) :=
  ⟨rfl, rfl⟩

/-- C10: when the value given to Save is itself a bun insert query, Save
uses that query directly as the insert statement — its model and existing
clauses are preserved — and still applies the dialect conflict clause and
the resolved update-column set (which, for a handed-in query, is the
deduplicated explicit column list, since bun.InsertQuery has no model-tagged
fields); this holds for every dialect and every explicit column list. -/
theorem save_insert_query_escape_hatch (iq : InsertQuery) (columns : List String) :
    save .pg (.insertQuery iq) columns =
      .exec { iq with
                onClause := some "CONFLICT (?PKs) DO UPDATE",
                setClauses := iq.setClauses ++
                  (collectUpdateColumns insertQueryModelType columns).map
                    (fun c => ⟨"? = EXCLUDED.?", [c, c]⟩) } ∧
    save .sqlite (.insertQuery iq) columns =
      .exec { iq with
                onClause := some "CONFLICT (?PKs) DO UPDATE",
                setClauses := iq.setClauses ++
                  (collectUpdateColumns insertQueryModelType columns).map
                    (fun c => ⟨"? = EXCLUDED.?", [c, c]⟩) } ∧
    save .mysql (.insertQuery iq) columns =
      .exec { iq with
                onClause := some "DUPLICATE KEY UPDATE",
                setClauses := iq.setClauses ++
                  (collectUpdateColumns insertQueryModelType columns).map
                    (fun c => ⟨"? = VALUES(?)", [c, c]⟩) } ∧
    (∀ name, save (.other name) (.insertQuery iq) columns = .exec iq) := by
  refine ⟨?_, ?_, ?_, fun name => rfl⟩ <;>
    simp [save, applyConflict, foldl_setClause, InsertQuery.On]
